import Mathlib

/-!
Verification development for the typizator runtime schema library.

The development shallowly embeds the schema engine of `src/schemas.ts`,
`src/primitive-types.ts` and `src/api.ts`: JavaScript values are the
inductive `JSValue`, schemas are the inductive `Schema`, and the
`unbox` conversion is the fuel-indexed interpreter `unboxF` (fuel is a
model artifact bounding call depth; every theorem quantifies over or
instantiates the fuel, and the out-of-fuel outcome is never reached in
any statement proved here).
-/

namespace Typizator

/-- A JavaScript value, as far as the schema engine observes it.
Numbers are modelled as exact rationals plus an explicit NaN
(floating-point rounding is irrelevant to every claim checked here);
dates are timestamps. -/
inductive JSValue where
  | vNull
  | vUndefined
  | vStr (s : String)
  | vNum (q : ℚ)
  | vNaN
  | vBigInt (n : ℤ)
  | vBool (b : Bool)
  | vDate (t : ℤ)
  | vArr (elems : List JSValue)
  | vObj (fields : List (String × JSValue))

/-- Errors raised by the engine.  The named constructors are the error
classes of `src/errors.ts`; `custom` is a plain `Error` with a message
(used for the contextual wrapping in structured schemas and for
`byDefault` validator errors); `syntaxError` / `rangeError` /
`typeError` are the JavaScript engine-level exceptions; `outOfFuel` is
the model artifact for exhausted recursion fuel (never raised by the
source and never reached in a theorem). -/
inductive Err where
  | nullNotAllowed
  | fieldMissing
  | invalidNumber
  | intOutOfBounds
  | invalidBoolean
  | invalidDate
  | jsonArrayNotFound
  | sourceNotObject
  | custom (msg : String)
  | syntaxError (msg : String)
  | rangeError (msg : String)
  | typeError (msg : String)
  | outOfFuel
  deriving DecidableEq, Repr

/-- The message carried by each error, from `src/errors.ts`
(`SourceNotObjectError` is declared in a snapshot of `errors.ts` that
is not part of the corpus; its message is immaterial to every claim). -/
def Err.message : Err → String
  | .nullNotAllowed => "Null not allowed"
  | .fieldMissing => "Field missing"
  | .invalidNumber => "Invalid number"
  | .intOutOfBounds => "Integer out of bounds"
  | .invalidBoolean => "Invalid boolean"
  | .invalidDate => "Invalid date"
  | .jsonArrayNotFound => "JSON Array not found"
  | .sourceNotObject => "Source is not an object"
  | .custom m => m
  | .syntaxError m => m
  | .rangeError m => m
  | .typeError m => m
  | .outOfFuel => "out of fuel"

/-- The per-call unboxing options (`UnboxingProperties`).  The source
receives `props?: UnboxingProperties`, so each flag is either absent
(`none`) or explicitly set; `props` itself being absent is the state
where both fields are `none`. -/
structure Props where
  keepNullString : Option Bool := none
  keepUndefinedString : Option Bool := none
  deriving DecidableEq, Repr

/-- `props?.keepNullString !== true` of the source. -/
def Props.keepNullNotTrue (p : Props) : Bool := p.keepNullString ≠ some true

/-- `props?.keepUndefinedString === false` of the source. -/
def Props.keepUndefFalse (p : Props) : Bool := p.keepUndefinedString = some false

/-- `source === null`. -/
def JSValue.isNull : JSValue → Bool
  | .vNull => true
  | _ => false

/-- `source === undefined`. -/
def JSValue.isUndefined : JSValue → Bool
  | .vUndefined => true
  | _ => false

/-- `source === lit` for a string literal `lit`. -/
def JSValue.isStrLit : JSValue → String → Bool
  | .vStr t, s => t = s
  | _, _ => false

/-! ### Number and string coercion helpers (JavaScript semantics) -/

/-- Digits of a natural number, most significant first. -/
def natDigits (n : ℕ) : List Char :=
  (Nat.toDigits 10 n)

/-- The smallest `k ≤ 40` with `den ∣ 10 ^ k`, if any: the decimal
rendering length of a fraction with denominator `den`. -/
def decExpOf (den : ℕ) : Option ℕ :=
  (List.range 41).find? (fun k => 10 ^ k % den == 0)

/-- JavaScript rendering of a number (`String(x)` / template literal)
for the finite decimal values the engine manipulates.  Values whose
reduced denominator is not of the form `2^a * 5^b` cannot arise from a
parsed decimal literal; they fall back to a fraction rendering (never
exercised by a claim). -/
def jsNumToString (q : ℚ) : String :=
  if q.den = 1 then toString q.num
  else
    match decExpOf q.den with
    | some k =>
      let sign := if q.num < 0 then "-" else ""
      let scaled : ℕ := (q.num.natAbs * 10 ^ k) / q.den
      let ip := scaled / 10 ^ k
      let fracNat := scaled % 10 ^ k
      let fracStr := String.mk (natDigits fracNat)
      let pad := String.mk (List.replicate (k - fracStr.length) (Char.ofNat 48))
      sign ++ toString ip ++ "." ++ pad ++ fracStr
    | none => toString q.num ++ "/" ++ toString q.den

/-- Numeric value of a decimal digit character, if it is one. -/
def digitVal (c : Char) : Option ℕ :=
  if c.toNat ≥ 48 ∧ c.toNat ≤ 57 then some (c.toNat - 48) else none

/-- Numeric value of a hexadecimal digit character, if it is one. -/
def hexVal (c : Char) : Option ℕ :=
  if c.toNat ≥ 48 ∧ c.toNat ≤ 57 then some (c.toNat - 48)
  else if c.toNat ≥ 97 ∧ c.toNat ≤ 102 then some (c.toNat - 87)
  else if c.toNat ≥ 65 ∧ c.toNat ≤ 70 then some (c.toNat - 55)
  else none

/-- Reads a run of digits in base `base`; returns the accumulated value
and the remaining characters, or `none` if no digit is present. -/
def readDigits (base : ℕ) (f : Char → Option ℕ) : List Char → Option (ℕ × List Char)
  | [] => none
  | c :: cs =>
    match f c with
    | none => none
    | some d =>
      let rec go (acc : ℕ) : List Char → ℕ × List Char
        | [] => (acc, [])
        | c1 :: cs1 =>
          match f c1 with
          | none => (acc, c1 :: cs1)
          | some d1 => go (acc * base + d1) cs1
      some (go d cs)

/-- JavaScript whitespace characters recognized by string trimming. -/
def isJsWs (c : Char) : Bool :=
  c = ' ' ∨ c = Char.ofNat 9 ∨ c = Char.ofNat 10 ∨ c = Char.ofNat 13 ∨ c = Char.ofNat 12 ∨ c = Char.ofNat 11

/-- Strips leading JavaScript whitespace. -/
def dropWs (cs : List Char) : List Char := cs.dropWhile isJsWs

/-- Strips leading and trailing JavaScript whitespace. -/
def trimWs (cs : List Char) : List Char := (dropWs ((dropWs cs.reverse)).reverse)

/-- Parses an unsigned decimal literal `digits [. digits]`, also
accepting the `.digits` and `digits.` forms.  The value is returned as
a scaled mantissa: the literal denotes `mantissa / 10 ^ scale`.
Returns `none` if no digit is present. -/
def readDecimal (cs : List Char) : Option (ℕ × ℕ × List Char) :=
  let intPart := readDigits 10 digitVal cs
  match intPart with
  | some (ip, rest) =>
    match rest with
    | '.' :: rest2 =>
      match readDigits 10 digitVal rest2 with
      | some (fp, rest3) =>
        let k := (rest2.length - rest3.length)
        some (ip * 10 ^ k + fp, k, rest3)
      | none => some (ip, 0, rest2)
    | _ => some (ip, 0, rest)
  | none =>
    match cs with
    | '.' :: rest2 =>
      match readDigits 10 digitVal rest2 with
      | some (fp, rest3) =>
        let k := (rest2.length - rest3.length)
        some (fp, k, rest3)
      | none => none
    | _ => none

/-- The exact rational `(-1)^neg * mant * 10 ^ (e - scale)` built with
the kernel-computable core constructor. -/
def assembleRat (neg : Bool) (mant : ℕ) (scale : ℕ) (e : ℤ) : ℚ :=
  let net : ℤ := e - (scale : ℤ)
  let signedMant : ℤ := if neg then -(mant : ℤ) else (mant : ℤ)
  if 0 ≤ net then mkRat (signedMant * ((10 ^ net.toNat : ℕ) : ℤ)) 1
  else mkRat signedMant (10 ^ net.natAbs)

/-- Parses the optional exponent suffix of a decimal literal. -/
def readExponent (cs : List Char) : Option (ℤ × List Char) :=
  match cs with
  | 'e' :: rest | 'E' :: rest =>
    let (sgn, rest2) : ℤ × List Char :=
      match rest with
      | '+' :: r => (1, r)
      | '-' :: r => (-1, r)
      | r => (1, r)
    match readDigits 10 digitVal rest2 with
    | some (e, rest3) => some (sgn * e, rest3)
    | none => none
  | _ => none

/-- `Number(string)` for the string forms the engine exercises: trimmed
whitespace, the empty string coercing to `0`, optional sign, decimal
literals with fraction and exponent, and `0x`/`0o`/`0b` prefixes.
`none` is NaN.  (`Infinity` is not representable in the rational model
and coerces to NaN here; no claim evaluates it.) -/
def jsStringToNumber (s : String) : Option ℚ :=
  let cs := trimWs s.data
  match cs with
  | [] => some (mkRat 0 1)
  | '0' :: 'x' :: rest | '0' :: 'X' :: rest =>
    match readDigits 16 hexVal rest with
    | some (n, []) => some (mkRat (n : ℤ) 1)
    | _ => none
  | '0' :: 'o' :: rest | '0' :: 'O' :: rest =>
    match readDigits 8 digitVal rest with
    | some (n, []) => some (mkRat (n : ℤ) 1)
    | _ => none
  | '0' :: 'b' :: rest | '0' :: 'B' :: rest =>
    match readDigits 2 digitVal rest with
    | some (n, []) => some (mkRat (n : ℤ) 1)
    | _ => none
  | _ =>
    let (neg, cs2) : Bool × List Char :=
      match cs with
      | '+' :: r => (false, r)
      | '-' :: r => (true, r)
      | r => (false, r)
    match readDecimal cs2 with
    | none => none
    | some (m, k, rest) =>
      match rest with
      | [] => some (assembleRat neg m k 0)
      | _ =>
        match readExponent rest with
        | some (e, []) => some (assembleRat neg m k e)
        | _ => none

/-- `BigInt(string)`: trimmed whitespace, the empty string giving `0n`,
an optional sign followed by decimal digits, or an unsigned
`0x`/`0o`/`0b` literal.  No fraction and no exponent are accepted;
`none` means the coercion throws a `SyntaxError`. -/
def jsStringToBigInt (s : String) : Option ℤ :=
  let cs := trimWs s.data
  match cs with
  | [] => some 0
  | '0' :: 'x' :: rest | '0' :: 'X' :: rest =>
    match readDigits 16 hexVal rest with
    | some (n, []) => some (n : ℤ)
    | _ => none
  | '0' :: 'o' :: rest | '0' :: 'O' :: rest =>
    match readDigits 8 digitVal rest with
    | some (n, []) => some (n : ℤ)
    | _ => none
  | '0' :: 'b' :: rest | '0' :: 'B' :: rest =>
    match readDigits 2 digitVal rest with
    | some (n, []) => some (n : ℤ)
    | _ => none
  | _ =>
    let (sgn, cs2) : ℤ × List Char :=
      match cs with
      | '+' :: r => (1, r)
      | '-' :: r => (-1, r)
      | r => (1, r)
    match readDigits 10 digitVal cs2 with
    | some (n, []) => some (sgn * n)
    | _ => none

/-- `String(x)` / template-literal coercion for the scalar values the
primitive schemas accept (objects and arrays are typed out by the
source and never reach this coercion in a claim). -/
def jsToString : JSValue → String
  | .vNull => "null"
  | .vUndefined => "undefined"
  | .vStr s => s
  | .vNum q => jsNumToString q
  | .vNaN => "NaN"
  | .vBigInt n => toString n
  | .vBool b => cond b "true" "false"
  | .vDate t => "Date(" ++ toString t ++ ")"
  | .vArr _ => ""
  | .vObj _ => "[object Object]"

/-- `Number(x)` coercion; `none` is NaN.  Arrays and objects coerce
through `toString` in JavaScript; they are typed out of every numeric
schema source and never evaluated by a claim, so they map to NaN
here. -/
def jsToNumber : JSValue → Option ℚ
  | .vNull => some (mkRat 0 1)
  | .vUndefined => none
  | .vStr s => jsStringToNumber s
  | .vNum q => some q
  | .vNaN => none
  | .vBigInt n => some (mkRat n 1)
  | .vBool b => some (mkRat (cond b 1 0) 1)
  | .vDate t => some (mkRat t 1)
  | .vArr _ => none
  | .vObj _ => none

/-- `Number.MAX_SAFE_INTEGER`. -/
def maxSafeInteger : ℤ := 9007199254740991

/-- `Number.isSafeInteger` on an integer. -/
def isSafeInt (n : ℤ) : Bool := n.natAbs ≤ maxSafeInteger.natAbs

/-- `Math.round`: round half toward positive infinity, i.e.
`⌊q + 1/2⌋`, computed as the floor division
`(2 * num + den) / (2 * den)` so the kernel can evaluate it. -/
def jsRound (q : ℚ) : ℤ := Int.fdiv (2 * q.num + (q.den : ℤ)) (2 * (q.den : ℤ))

/-! ### The json-bigint external collaborator

`JSONBig.parse` / `JSONBig.stringify` come from the external
`json-bigint` package: structured schemas use them to accept raw JSON
text and to render offending values inside contextual error messages.
Integers beyond the safe range parse to big integers, everything else
to ordinary numbers. -/

/-- Escapes a string for a JSON string literal (the escapes the
stringifier emits for the characters the engine manipulates). -/
def jsonEscape (s : String) : String :=
  String.join (s.data.map (fun c =>
    if c = '"' then "\\\""
    else if c = '\\' then "\\\\"
    else if c = Char.ofNat 10 then "\\n"
    else if c = Char.ofNat 13 then "\\r"
    else if c = Char.ofNat 9 then "\\t"
    else String.mk [c]))

/-- A JSON string literal. -/
def jsonQuote (s : String) : String := "\"" ++ jsonEscape s ++ "\""

mutual
/-- `JSONBig.stringify`: `none` when the value is `undefined` (the
JavaScript call returns the value `undefined`, not a string). -/
def jsonStringifyOpt : JSValue → Option String
  | .vUndefined => none
  | .vNull => some "null"
  | .vNaN => some "null"
  | .vBool b => some (cond b "true" "false")
  | .vNum q => some (jsNumToString q)
  | .vBigInt n => some (toString n)
  | .vStr s => some (jsonQuote s)
  | .vDate t => some (jsonQuote ("Date(" ++ toString t ++ ")"))
  | .vArr xs => some ("[" ++ jsonStringifyArr xs ++ "]")
  | .vObj fs => some ("\x7b" ++ jsonStringifyObj fs ++ "\x7d")

/-- Renders the comma-separated elements of an array (an `undefined`
element renders as `null`). -/
def jsonStringifyArr : List JSValue → String
  | [] => ""
  | [x] => (jsonStringifyOpt x).getD "null"
  | x :: y :: rest => (jsonStringifyOpt x).getD "null" ++ "," ++ jsonStringifyArr (y :: rest)

/-- Renders the comma-separated members of an object (fields whose
value is `undefined` are omitted). -/
def jsonStringifyObj : List (String × JSValue) → String
  | [] => ""
  | (k, x) :: rest =>
    match jsonStringifyOpt x with
    | none => jsonStringifyObj rest
    | some sx =>
      let restStr := jsonStringifyObj rest
      jsonQuote k ++ ":" ++ sx ++ (if restStr = "" then "" else "," ++ restStr)
end

/-- Interpolating a stringified value into a template literal:
`undefined` interpolates as the text "undefined". -/
def interpStringify (v : JSValue) : String := (jsonStringifyOpt v).getD "undefined"

/-- JSON whitespace. -/
def dropJsonWs (cs : List Char) : List Char :=
  cs.dropWhile (fun c => c = ' ' ∨ c = Char.ofNat 9 ∨ c = Char.ofNat 10 ∨ c = Char.ofNat 13)

/-- Reads the body of a JSON string literal after the opening quote. -/
def readJsonString : Nat → List Char → Option (String × List Char)
  | 0, _ => none
  | _, [] => none
  | fuel + 1, c :: cs =>
    if c = '"' then some ("", cs)
    else if c = '\\' then
      match cs with
      | [] => none
      | e :: cs2 =>
        let dec : Option Char :=
          if e = '"' then some '"'
          else if e = '\\' then some '\\'
          else if e = '/' then some '/'
          else if e = 'n' then some (Char.ofNat 10)
          else if e = 'r' then some (Char.ofNat 13)
          else if e = 't' then some (Char.ofNat 9)
          else if e = 'b' then some (Char.ofNat 8)
          else if e = 'f' then some (Char.ofNat 12)
          else none
        match dec with
        | none =>
          if e = 'u' then
            match cs2 with
            | h1 :: h2 :: h3 :: h4 :: cs3 =>
              match hexVal h1, hexVal h2, hexVal h3, hexVal h4 with
              | some a, some b, some c3, some d =>
                match readJsonString fuel cs3 with
                | some (s, rest) =>
                  some (String.mk [Char.ofNat (((a * 16 + b) * 16 + c3) * 16 + d)] ++ s, rest)
                | none => none
              | _, _, _, _ => none
            | _ => none
          else none
        | some ch =>
          match readJsonString fuel cs2 with
          | some (s, rest) => some (String.mk [ch] ++ s, rest)
          | none => none
    else
      match readJsonString fuel cs with
      | some (s, rest) => some (String.mk [c] ++ s, rest)
      | none => none

/-- Reads a JSON number literal and converts it the way json-bigint
does: integers beyond the safe range become big integers, every other
number an ordinary one. -/
def readJsonNumber (cs : List Char) : Option (JSValue × List Char) :=
  let (neg, cs2) : Bool × List Char :=
    match cs with
    | '-' :: r => (true, r)
    | r => (false, r)
  match readDecimal cs2 with
  | none => none
  | some (m, k, rest) =>
    let withExp : Option (ℚ × List Char) :=
      match readExponent rest with
      | some (e, rest2) => some (assembleRat neg m k e, rest2)
      | none => some (assembleRat neg m k 0, rest)
    match withExp with
    | none => none
    | some (q, rest2) =>
      if q.den = 1 ∧ ¬ isSafeInt q.num then some (.vBigInt q.num, rest2)
      else some (.vNum q, rest2)

mutual
/-- `JSONBig.parse`, one JSON value (fuel-bounded recursive descent). -/
def parseJsonValue : Nat → List Char → Option (JSValue × List Char)
  | 0, _ => none
  | fuel + 1, cs =>
    match dropJsonWs cs with
    | 'n' :: 'u' :: 'l' :: 'l' :: rest => some (.vNull, rest)
    | 't' :: 'r' :: 'u' :: 'e' :: rest => some (.vBool true, rest)
    | 'f' :: 'a' :: 'l' :: 's' :: 'e' :: rest => some (.vBool false, rest)
    | '"' :: rest =>
      match readJsonString (rest.length + 1) rest with
      | some (s, rest2) => some (.vStr s, rest2)
      | none => none
    | '[' :: rest =>
      match dropJsonWs rest with
      | ']' :: rest2 => some (.vArr [], rest2)
      | _ =>
        match parseJsonElems fuel rest with
        | some (xs, rest2) => some (.vArr xs, rest2)
        | none => none
    | '\x7b' :: rest =>
      match dropJsonWs rest with
      | '\x7d' :: rest2 => some (.vObj [], rest2)
      | _ =>
        match parseJsonMembers fuel rest with
        | some (fs, rest2) => some (.vObj fs, rest2)
        | none => none
    | other => readJsonNumber other

/-- Comma-separated array elements up to the closing bracket. -/
def parseJsonElems : Nat → List Char → Option (List JSValue × List Char)
  | 0, _ => none
  | fuel + 1, cs =>
    match parseJsonValue fuel cs with
    | none => none
    | some (v, rest) =>
      match dropJsonWs rest with
      | ',' :: rest2 =>
        match parseJsonElems fuel rest2 with
        | some (xs, rest3) => some (v :: xs, rest3)
        | none => none
      | ']' :: rest2 => some ([v], rest2)
      | _ => none

/-- Comma-separated object members up to the closing brace. -/
def parseJsonMembers : Nat → List Char → Option (List (String × JSValue) × List Char)
  | 0, _ => none
  | fuel + 1, cs =>
    match dropJsonWs cs with
    | '"' :: rest =>
      match readJsonString (rest.length + 1) rest with
      | none => none
      | some (k, rest2) =>
        match dropJsonWs rest2 with
        | ':' :: rest3 =>
          match parseJsonValue fuel rest3 with
          | none => none
          | some (v, rest4) =>
            match dropJsonWs rest4 with
            | ',' :: rest5 =>
              match parseJsonMembers fuel rest5 with
              | some (fs, rest6) => some ((k, v) :: fs, rest6)
              | none => none
            | '\x7d' :: rest5 => some ([(k, v)], rest5)
            | _ => none
        | _ => none
    | _ => none
end

/-- `JSONBig.parse` on a whole string: a `SyntaxError` when the text is
not a single JSON value. -/
def jsonParse (s : String) : Except Err JSValue :=
  match parseJsonValue (s.length + 1) s.data with
  | some (v, rest) =>
    if (dropJsonWs rest).isEmpty then .ok v
    else .error (.syntaxError "Unexpected token in JSON")
  | none => .error (.syntaxError "Unexpected token in JSON")

/-! ### Schemas

The schema algebra of `src/schemas.ts` and `src/primitive-types.ts`:
six primitive leaves, the three structured builders, the recursive
placeholder, and the three modifier facades (`NotNullFacadeImpl`,
`OptionalFacadeImpl`, `ByDefaultFacadeImpl`). -/

/-- The target resolution of a `byDefault` rule: a constant, an error
to throw (validator mode), or a transform applied to the raw source. -/
inductive DefaultTarget where
  | value (v : JSValue)
  | errorT (msg : String)
  | fn (g : JSValue → JSValue)

/-- A `byDefault(target, condition)` rule. -/
structure DefaultRule where
  target : DefaultTarget
  condition : JSValue → Bool

/-- The default `byDefault` condition:
`source => source === null || source === undefined`. -/
def byDefaultDefaultCondition (v : JSValue) : Bool := v.isNull || v.isUndefined

/-- A schema tree. -/
inductive Schema where
  | stringS
  | intS
  | floatS
  | bigintS
  | boolS
  | dateS
  | objectS (fields : List (String × Schema))
  | arrayS (elem : Schema)
  | dictionaryS (values : Schema)
  | recursiveS
  | notNull (inner : Schema)
  | optional (inner : Schema)
  | byDefault (inner : Schema) (rule : DefaultRule)

/-- `metadata.dataType`.  Facades copy the wrapped schema's metadata,
so they report the inner data type. -/
def dataTypeOf : Schema → String
  | .stringS => "string"
  | .intS => "int"
  | .floatS => "float"
  | .bigintS => "bigint"
  | .boolS => "bool"
  | .dateS => "date"
  | .objectS _ => "object"
  | .arrayS _ => "array"
  | .dictionaryS _ => "dictionary"
  | .recursiveS => "recursive"
  | .notNull s => dataTypeOf s
  | .optional s => dataTypeOf s
  | .byDefault s _ => dataTypeOf s

/-- `metadata.notNull`: `NotNullFacadeImpl` sets it, `OptionalFacadeImpl`
clears it, `ByDefaultFacadeImpl` copies the inner value. -/
def notNullOf : Schema → Bool
  | .notNull _ => true
  | .optional _ => false
  | .byDefault s _ => notNullOf s
  | _ => false

/-- `metadata.optional`: `OptionalFacadeImpl` sets it, `NotNullFacadeImpl`
clears it, `ByDefaultFacadeImpl` copies the inner value; the recursive
placeholder declares itself optional. -/
def optionalOf : Schema → Bool
  | .optional _ => true
  | .notNull _ => false
  | .byDefault s _ => optionalOf s
  | .recursiveS => true
  | _ => false

/-- `metadata.hasDefaultRule`: set by `ByDefaultFacadeImpl`, copied by
the other facades. -/
def hasDefaultRuleOf : Schema → Bool
  | .byDefault _ _ => true
  | .notNull s => hasDefaultRuleOf s
  | .optional s => hasDefaultRuleOf s
  | _ => false

/-- `metadata.fields` as seen through facades over an object schema
(facades copy the inner metadata, including the field map). -/
def fieldsOf : Schema → List (String × Schema)
  | .objectS fs => fs
  | .notNull s => fieldsOf s
  | .optional s => fieldsOf s
  | .byDefault s _ => fieldsOf s
  | _ => []

/-- `sourceConverted[key]`: property lookup yields `undefined` when the
key is absent or the value is not an object. -/
def jsGet (v : JSValue) (key : String) : JSValue :=
  match v with
  | .vObj fs => (fs.lookup key).getD .vUndefined
  | _ => .vUndefined

/-- `ByDefaultFacadeImpl.targetCheck`: a function target is applied, an
error target is thrown, any other target is returned as-is. -/
def applyTarget : DefaultTarget → JSValue → Except Err JSValue
  | .fn g, v => .ok (g v)
  | .errorT msg, _ => .error (.custom msg)
  | .value v0, _ => .ok v0

/-- `Date.now()` is an environment input; no claim depends on the
current time, so it is modelled as a fixed timestamp. -/
def dateNow : ℤ := 0

/-- `Date.parse` is engine-specific and no claim evaluates it; it is
modelled as rejecting every string (`InvalidDate` for any non-empty
string input to the date schema). -/
def jsDateParse (_ : String) : Option ℤ := none

/-- The contextual wrapper for a failed child conversion:
"Unboxing NAME, value: RAW: INNER" (from `ObjectSImpl.convert`, with
the array/dictionary variants built by the callers below). -/
def wrapErr (what : String) (raw : JSValue) (e : Err) : Err :=
  .custom ("Unboxing " ++ what ++ ", value: " ++ interpStringify raw ++ ": " ++ e.message)

/-! ### The unboxing interpreter

`unboxF fuel` interprets `Schema.unbox`.  Recursion into child schemas
passes `fuel`, one less than the caller received, so `fuel` bounds the
call depth; `Err.outOfFuel` at depth zero is the model artifact. -/

/-- `ObjectSImpl.convert`, the per-field loop: each declared field is
looked up in the (already JSON-parsed) source; a recursive-placeholder
field recursively unboxes through the object schema itself when
present and non-null and is skipped otherwise; an `undefined` unboxed
value omits the key; a failure is wrapped with the field name and the
rendered raw value.  `rec` is the fuel-decremented interpreter. -/
def unboxObjectFields (rec : Schema → JSValue → Props → Except Err JSValue)
    (whole : List (String × Schema)) (src : JSValue) (p : Props) :
    List (String × Schema) → Except Err (List (String × JSValue))
  | [] => .ok []
  | (key, fsch) :: rest =>
    let boxed := jsGet src key
    let step : Except Err (Option JSValue) :=
      if dataTypeOf fsch = "recursive" then
        if boxed.isUndefined || boxed.isNull then .ok none
        else
          match rec (.objectS whole) boxed p with
          | .ok u => .ok (if u.isUndefined then none else some u)
          | .error e => .error (wrapErr key boxed e)
      else
        match rec fsch boxed p with
        | .ok u => .ok (if u.isUndefined then none else some u)
        | .error e => .error (wrapErr key boxed e)
    match step with
    | .error e => .error e
    | .ok none => unboxObjectFields rec whole src p rest
    | .ok (some u) =>
      match unboxObjectFields rec whole src p rest with
      | .ok tail => .ok ((key, u) :: tail)
      | .error e => .error e

/-- `ArraySImpl.convert`, the element loop: each element goes through
the element schema, and a failure is wrapped with the zero-based index
and the rendered raw value. -/
def unboxArrayElems (rec : Schema → JSValue → Props → Except Err JSValue)
    (elemS : Schema) (p : Props) : Nat → List JSValue → Except Err (List JSValue)
  | _, [] => .ok []
  | idx, x :: rest =>
    match rec elemS x p with
    | .error e => .error (wrapErr ("array element " ++ toString idx) x e)
    | .ok u =>
      match unboxArrayElems rec elemS p (idx + 1) rest with
      | .ok tail => .ok (u :: tail)
      | .error e => .error e

/-- `DictionarySImpl.convert`, the key loop: each value goes through
the value schema, and a failure is wrapped with the key and the
rendered raw value. -/
def unboxDictEntries (rec : Schema → JSValue → Props → Except Err JSValue)
    (valS : Schema) (p : Props) : List (String × JSValue) → Except Err (List (String × JSValue))
  | [] => .ok []
  | (k, x) :: rest =>
    match rec valS x p with
    | .error e => .error (wrapErr ("dictionary element " ++ k) x e)
    | .ok u =>
      match unboxDictEntries rec valS p rest with
      | .ok tail => .ok ((k, u) :: tail)
      | .error e => .error e

/-- The type-specific `convert` of each base schema (the abstract
method that `TypeSchema.unbox` delegates to after the shared null /
undefined handling).  `rec` is the fuel-decremented interpreter used
for child conversions; facades and the recursive placeholder never
reach `convert` and fall to an unreachable error. -/
def convertF (rec : Schema → JSValue → Props → Except Err JSValue)
    (sch : Schema) (v : JSValue) (p : Props) : Except Err JSValue :=
  match sch with
  | .stringS =>
    -- typeof source === "string" ? source : `${source}`
    match v with
    | .vStr s => .ok (.vStr s)
    | other => .ok (.vStr (jsToString other))
  | .intS =>
    match jsToNumber v with
    | none => .error .invalidNumber
    | some q =>
      -- Number.isInteger(converted) ? converted : Math.round(converted)
      let returned : ℤ := if q.den = 1 then q.num else jsRound q
      if isSafeInt returned = false then .error .intOutOfBounds
      else .ok (.vNum (mkRat returned 1))
  | .floatS =>
    match jsToNumber v with
    | none => .error .invalidNumber
    | some q => .ok (.vNum q)
  | .bigintS =>
    -- typeof source === "bigint" ? source : BigInt(source)
    match v with
    | .vBigInt n => .ok (.vBigInt n)
    | .vNum q =>
      if q.den = 1 then .ok (.vBigInt q.num)
      else .error (.rangeError "The number is not a safe integer")
    | .vNaN => .error (.rangeError "The number is not a safe integer")
    | .vStr s =>
      match jsStringToBigInt s with
      | some n => .ok (.vBigInt n)
      | none => .error (.syntaxError "Cannot convert string to a BigInt")
    | .vBool b => .ok (.vBigInt (cond b 1 0))
    | _ => .error (.typeError "Cannot convert to a BigInt")
  | .boolS =>
    match v with
    | .vStr s =>
      if s = "true" ∨ s = "1" then .ok (.vBool true)
      else if s = "false" ∨ s = "0" then .ok (.vBool false)
      else .error .invalidBoolean
    | .vNum q =>
      if q.num = 1 ∧ q.den = 1 then .ok (.vBool true)
      else if q.num = 0 then .ok (.vBool false)
      else .error .invalidBoolean
    | .vNaN => .error .invalidBoolean
    | other => .ok other
  | .dateS =>
    match v with
    | .vStr s =>
      if s = "" then .ok (.vDate dateNow)
      else
        match jsDateParse s with
        | none => .error .invalidDate
        | some t => .ok (.vDate t)
    | other => .ok other
  | .objectS fields =>
    match (match v with | .vStr s => jsonParse s | other => .ok other) with
    | .error e => .error e
    | .ok srcConv =>
      match unboxObjectFields rec fields srcConv p fields with
      | .ok outFields => .ok (.vObj outFields)
      | .error e => .error e
  | .arrayS elemS =>
    match (match v with | .vStr s => jsonParse s | other => .ok other) with
    | .error e => .error e
    | .ok srcConv =>
      match srcConv with
      | .vArr xs =>
        match unboxArrayElems rec elemS p 0 xs with
        | .ok out => .ok (.vArr out)
        | .error e => .error e
      | _ => .error .jsonArrayNotFound
  | .dictionaryS valS =>
    match (match v with | .vStr s => jsonParse s | other => .ok other) with
    | .error e => .error e
    | .ok srcConv =>
      match srcConv with
      | .vObj fs =>
        match unboxDictEntries rec valS p fs with
        | .ok out => .ok (.vObj out)
        | .error e => .error e
      -- typeof null === "object": Object.keys(null) raises a TypeError
      | .vNull => .error (.typeError "Cannot convert undefined or null to object")
      | _ => .error .sourceNotObject
  | .recursiveS => .error (.custom "unreachable")
  | .notNull _ => .error (.custom "unreachable")
  | .optional _ => .error (.custom "unreachable")
  | .byDefault _ _ => .error (.custom "unreachable")

/-- `Schema.unbox` as a fuel-indexed interpreter: the base
`TypeSchema.unbox` contract for leaf and structured schemas, and the
three facade behaviors, each delegating one fuel step down. -/
def unboxF : Nat → Schema → JSValue → Props → Except Err JSValue
  | 0, _, _, _ => .error .outOfFuel
  | fuel + 1, sch, v, p =>
    match sch with
    | .notNull s =>
      -- NotNullFacadeImpl.unbox
      if v.isNull || (p.keepNullNotTrue && v.isStrLit "null") then .error .nullNotAllowed
      else unboxF fuel s v p
    | .optional s =>
      -- OptionalFacadeImpl.unbox
      if !(hasDefaultRuleOf s) &&
          (v.isUndefined || (p.keepUndefFalse && v.isStrLit "undefined")) then
        .ok .vUndefined
      else
        match unboxF fuel s v p with
        | .ok u => .ok u
        | .error e => if v.isUndefined then .ok .vUndefined else .error e
    | .byDefault s rule =>
      -- ByDefaultFacadeImpl.unbox
      if rule.condition v then applyTarget rule.target v
      else unboxF fuel s v p
    | .recursiveS => .error (.custom "Recursive schema cannot be unboxed directly")
    | base =>
      -- TypeSchema.unbox: the shared base contract
      if v.isNull || (p.keepNullNotTrue && v.isStrLit "null") then .ok .vNull
      else if v.isUndefined || (p.keepUndefFalse && v.isStrLit "undefined") then
        .error .fieldMissing
      else convertF (unboxF fuel) base v p

/-! ### The signature generator (`getSchemaSignature`)

`getTypeSchemaSignature` renders the shape (dispatching on
`metadata.dataType`, which facades copy from the schema they wrap) and
`getSchemaSignature` appends the `.NN` / `.OPT` / `.DEF` suffixes read
from the metadata flags. -/

/-- The metadata suffixes `getSchemaSignature` appends to the shape
signature: ".NN" if not-null else ".OPT" if optional, then ".DEF" if a
default rule is present. -/
def sigSuffix (s : Schema) : String :=
  (if notNullOf s then ".NN" else if optionalOf s then ".OPT" else "") ++
    (if hasDefaultRuleOf s then ".DEF" else "")

mutual
/-- `getTypeSchemaSignature` on a schema: objects as
"(field:sig,...)" braces, arrays as "sig[]", dictionaries as
"([string]:sig)" braces, anything else as its `dataType` tag (the
dispatch reads `metadata.dataType`, which facades copy from the schema
they wrap, so a facade renders as the shape it wraps). -/
def sigCore : Schema → String
  | .objectS fields => "\x7b" ++ sigFields fields ++ "\x7d"
  | .arrayS elemS => (sigCore elemS ++ sigSuffix elemS) ++ "[]"
  | .dictionaryS valS => "\x7b[string]:" ++ (sigCore valS ++ sigSuffix valS) ++ "\x7d"
  | .notNull s => sigCore s
  | .optional s => sigCore s
  | .byDefault s _ => sigCore s
  | s => dataTypeOf s

/-- `getObjectSchemaSignature`: the comma-joined "name:signature" list
in declaration order, each field rendered with its full (suffixed)
signature. -/
def sigFields : List (String × Schema) → String
  | [] => ""
  | [(k, s)] => k ++ ":" ++ (sigCore s ++ sigSuffix s)
  | (k, s) :: kv :: rest => (k ++ ":" ++ (sigCore s ++ sigSuffix s)) ++ "," ++ sigFields (kv :: rest)
end

/-- `getSchemaSignature` on a schema: the shape signature followed by
the metadata suffixes. -/
def sigFull (s : Schema) : String := sigCore s ++ sigSuffix s

/-- `getSchemaSignature` on a raw field-definition map (the non-schema
branch): the object signature of the map, with no suffixes. -/
def sigOfDefinition (fields : List (String × Schema)) : String :=
  "\x7b" ++ sigFields fields ++ "\x7d"

/-- Whether `sub` occurs at the start of `cs`. -/
def charsStartWith : List Char → List Char → Bool
  | _, [] => true
  | [], _ :: _ => false
  | c :: cs, d :: ds => c = d && charsStartWith cs ds

/-- The first position at or after `i` where `sub` occurs in `cs`. -/
def findSubFrom : List Char → List Char → Nat → Option Nat
  | cs, sub, i =>
    if charsStartWith cs sub then some i
    else
      match cs with
      | [] => none
      | _ :: rest => findSubFrom rest sub (i + 1)

/-- `String.prototype.indexOf`: the index of the first occurrence of
`sub` in `s`, or `-1`. -/
def jsIndexOf (s sub : String) : ℤ :=
  match findSubFrom s.data sub.data 0 with
  | some i => (i : ℤ)
  | none => -1

/-- True when `sub` occurs somewhere in `s`. -/
def strContains (s sub : String) : Bool := (findSubFrom s.data sub.data 0).isSome

mutual
/-- A default rule somewhere in a schema tree (the property the spec
phrases as "contains a default/validation rule anywhere in its nested
schemas"). -/
def hasRuleDeep : Schema → Bool
  | .byDefault _ _ => true
  | .notNull s => hasRuleDeep s
  | .optional s => hasRuleDeep s
  | .objectS fields => hasRuleDeepFields fields
  | .arrayS s => hasRuleDeep s
  | .dictionaryS s => hasRuleDeep s
  | _ => false

/-- A default rule somewhere in a field-definition map. -/
def hasRuleDeepFields : List (String × Schema) → Bool
  | [] => false
  | (_, s) :: rest => hasRuleDeep s || hasRuleDeepFields rest
end

/-! ### The schema factories

`ObjectFactory` / `ArrayFactory` / `DictionaryFactory` are process-wide
caches keyed by signatures.  Instance identity is modelled by numbered
allocations: `next` is the id the next `new` expression produces, and
two results are the same JavaScript object exactly when they carry the
same id. -/

/-- The process-wide factory state: one signature-to-instance store per
factory, and the allocation counter. -/
structure FactoryState where
  objStore : List (String × Nat) := []
  arrStore : List (String × Nat) := []
  dictStore : List (String × Nat) := []
  next : Nat := 0
  deriving DecidableEq, Repr

/-- `ObjectFactory.getOrCreateObject`: compute the definition's
signature; if it contains ".DEF" at a positive index, always allocate
a fresh instance; otherwise return the stored instance for the
signature, allocating and storing one on a miss. -/
def getOrCreateObject (st : FactoryState) (defn : List (String × Schema)) :
    FactoryState × Nat :=
  let signature := sigOfDefinition defn
  if jsIndexOf signature ".DEF" > 0 then
    ({ st with next := st.next + 1 }, st.next)
  else
    match st.objStore.lookup signature with
    | some id => (st, id)
    | none => ({ st with objStore := (signature, st.next) :: st.objStore, next := st.next + 1 }, st.next)

/-- `ArrayFactory.getOrCreateArray`, keyed by the element schema's
signature. -/
def getOrCreateArray (st : FactoryState) (elemS : Schema) : FactoryState × Nat :=
  let signature := sigFull elemS
  if jsIndexOf signature ".DEF" > 0 then
    ({ st with next := st.next + 1 }, st.next)
  else
    match st.arrStore.lookup signature with
    | some id => (st, id)
    | none => ({ st with arrStore := (signature, st.next) :: st.arrStore, next := st.next + 1 }, st.next)

/-- `DictionaryFactory.getOrCreateDictionary`, keyed by the value
schema's signature. -/
def getOrCreateDictionary (st : FactoryState) (valS : Schema) : FactoryState × Nat :=
  let signature := sigFull valS
  if jsIndexOf signature ".DEF" > 0 then
    ({ st with next := st.next + 1 }, st.next)
  else
    match st.dictStore.lookup signature with
    | some id => (st, id)
    | none => ({ st with dictStore := (signature, st.next) :: st.dictStore, next := st.next + 1 }, st.next)

/-! ### `extend` -/

/-- The JavaScript object spread "(...a, ...b)": the keys of `a` in
order with values overridden by `b` where present, followed by the
keys of `b` not already in `a`, in order. -/
def jsSpread (a b : List (String × Schema)) : List (String × Schema) :=
  (a.map (fun kv => (kv.1, (b.lookup kv.1).getD kv.2))) ++
    b.filter (fun kv => (a.lookup kv.1).isNone)

/-- `extend` as reachable through the public API: on an object schema
it overlays the definition (`ObjectSImpl.extend`); on a `notNull` /
`optional` facade it checks the copied metadata's data type, raising
"Cannot extend non-object schema" unless it is "object", and overlays
the underlying definition (`NotNullFacadeImpl.extend` /
`OptionalFacadeImpl.extend`); every other schema has no `extend`
method at all, which is a JavaScript `TypeError` at the call site. -/
def extendSchema (s : Schema) (extra : List (String × Schema)) : Except Err Schema :=
  match s with
  | .objectS fields => .ok (.objectS (jsSpread fields extra))
  | .notNull inner =>
    if dataTypeOf inner = "object" then .ok (.objectS (jsSpread (fieldsOf inner) extra))
    else .error (.custom "Cannot extend non-object schema")
  | .optional inner =>
    if dataTypeOf inner = "object" then .ok (.objectS (jsSpread (fieldsOf inner) extra))
    else .error (.custom "Cannot extend non-object schema")
  | _ => .error (.typeError "extend is not a function")

/-! ### The API metadata builder (`src/api.ts`)

A function-call definition is detected by `typeof field.args ===
"object"`; its keys are checked against the allowed set before the
member metadata is built.  Names and slash-joined paths are assigned
from the root; the `hidden` flag of a function falls back to the
containing API's flag. -/

/-- A node of an API definition: a function-call definition (with the
ordered list of keys the object literal carries, and its own optional
`hidden` value), or a nested API definition. -/
inductive ApiNode where
  | fn (keys : List String) (hidden : Option Bool)
  | api (members : List (String × ApiNode))

/-- The metadata tree `extractMetadata` produces (restricted to the
name / path / hidden information the claims are about). -/
inductive ApiMeta where
  | fnMeta (name path : String) (hidden : Option Bool)
  | apiMeta (name path : String) (hidden : Option Bool)
      (members : List (String × ApiMeta))

/-- The first key of a function-call definition outside
`["args", "retVal", "hidden"]`, if any. -/
def firstInvalidKey (keys : List String) : Option String :=
  keys.find? (fun fld => ¬ (fld = "args" ∨ fld = "retVal" ∨ fld = "hidden"))

mutual
/-- One member of an API definition: a function member (detected in
the source by its `args` field being an object) has its keys
validated, raising "Invalid field FLD in NAME/KEY" on the first
unrecognized one, and gets `name`, `path` and the propagated `hidden`
flag (its own value winning over the containing definition's); a
sub-api member recurses with the extended parent path. -/
def extractApiMember : ApiNode → String → String → String → Option Bool →
    Except String ApiMeta
  | .fn keys fnHidden, key, metadataName, parentPath, propsHidden =>
    match firstInvalidKey keys with
    | some fld => .error ("Invalid field " ++ fld ++ " in " ++ metadataName ++ "/" ++ key)
    | none =>
      .ok (.fnMeta key (parentPath ++ metadataName ++ "/" ++ key) (fnHidden <|> propsHidden))
  | .api ms, key, metadataName, parentPath, propsHidden =>
    match extractApiMembers ms key (parentPath ++ metadataName ++ "/") propsHidden with
    | .error e => .error e
    | .ok impl =>
      .ok (.apiMeta key ((parentPath ++ metadataName ++ "/") ++ key) propsHidden impl)

/-- The member loop of `ApiS.extractMetadata`. -/
def extractApiMembers : List (String × ApiNode) → String → String → Option Bool →
    Except String (List (String × ApiMeta))
  | [], _, _, _ => .ok []
  | (key, node) :: rest, metadataName, parentPath, propsHidden =>
    match extractApiMember node key metadataName parentPath propsHidden with
    | .error e => .error e
    | .ok m =>
      match extractApiMembers rest metadataName parentPath propsHidden with
      | .error e => .error e
      | .ok tail => .ok ((key, m) :: tail)
end

/-- `ApiS.extractMetadata` on one definition object. -/
def extractApi (members : List (String × ApiNode)) (metadataName parentPath : String)
    (propsHidden : Option Bool) : Except String ApiMeta :=
  match extractApiMembers members metadataName parentPath propsHidden with
  | .error e => .error e
  | .ok impl => .ok (.apiMeta metadataName (parentPath ++ metadataName) propsHidden impl)

/-- `apiS(definition, props)`. -/
def apiSModel (definition : List (String × ApiNode)) (propsHidden : Option Bool) :
    Except String ApiMeta :=
  extractApi definition "" "" propsHidden

/-- The full slash-joined path assigned to a member of the metadata
tree (the `path` field of `NamedMetadata`). -/
def ApiMeta.path : ApiMeta → String
  | .fnMeta _ p _ => p
  | .apiMeta _ p _ _ => p

/-- Looks a member up in a metadata tree by its key sequence from the
root. -/
def ApiMeta.find : ApiMeta → List String → Option ApiMeta
  | m, [] => some m
  | .apiMeta _ _ _ members, k :: ks =>
    match members.lookup k with
    | some child => child.find ks
    | none => none
  | .fnMeta _ _ _, _ :: _ => none

/-- The non-facaded leaf and structured schemas: the six primitives
and Object / Array / Dictionary. -/
def isBaseSchema : Schema → Prop
  | .stringS | .intS | .floatS | .bigintS | .boolS | .dateS => True
  | .objectS _ | .arrayS _ | .dictionaryS _ => True
  | _ => False

/-!
## Theorems for the claims
-/

/-- C1: for every non-facaded leaf or structured schema S and every
options record, `S.unbox(null)` returns null; `S.unbox("null")`
returns null unless `keepNullString` is true; `S.unbox(undefined)`
raises FieldMissing; `S.unbox("undefined")` raises FieldMissing
exactly when `keepUndefinedString` is explicitly false, and otherwise
the string is delegated to the type-specific conversion as an ordinary
value; `notNull` turns the null / "null" case into NullNotAllowed, and
`optional` turns the undefined case into a silent undefined result. -/
theorem c1_base_unbox_contract : ∀ (S : Schema), isBaseSchema S → ∀ (p : Props) (f : Nat),
    unboxF (f + 1) S .vNull p = .ok .vNull ∧
    (p.keepNullString ≠ some true → unboxF (f + 1) S (.vStr "null") p = .ok .vNull) ∧
    unboxF (f + 1) S .vUndefined p = .error .fieldMissing ∧
    (p.keepUndefinedString = some false →
      unboxF (f + 1) S (.vStr "undefined") p = .error .fieldMissing) ∧
    (p.keepUndefinedString ≠ some false →
      unboxF (f + 1) S (.vStr "undefined") p = convertF (unboxF f) S (.vStr "undefined") p) ∧
    unboxF (f + 1) (.notNull S) .vNull p = .error .nullNotAllowed ∧
    (p.keepNullString ≠ some true →
      unboxF (f + 1) (.notNull S) (.vStr "null") p = .error .nullNotAllowed) ∧
    unboxF (f + 1) (.optional S) .vUndefined p = .ok .vUndefined := by
  intro S hS p f
  cases S <;> simp [isBaseSchema] at hS <;>
    refine ⟨?_, fun h => ?_, ?_, fun h => ?_, fun h => ?_, ?_, fun h => ?_, ?_⟩ <;>
    simp [unboxF, JSValue.isNull, JSValue.isUndefined, JSValue.isStrLit,
      Props.keepNullNotTrue, Props.keepUndefFalse, hasDefaultRuleOf, *]

/-- Witness for C1 at the int schema with default options (and with
`keepUndefinedString` explicitly false for the FieldMissing clause). -/
theorem c1_base_unbox_contract_witness :
    unboxF 1 .intS .vNull {} = .ok .vNull ∧
    unboxF 1 .intS (.vStr "null") {} = .ok .vNull ∧
    unboxF 1 .intS (.vStr "undefined") { keepUndefinedString := some false } =
      .error .fieldMissing ∧
    unboxF 1 (.notNull .intS) .vNull {} = .error .nullNotAllowed ∧
    unboxF 1 (.optional .intS) .vUndefined {} = .ok .vUndefined :=
  ⟨(c1_base_unbox_contract .intS trivial {} 0).1,
   (c1_base_unbox_contract .intS trivial {} 0).2.1 (by decide),
   (c1_base_unbox_contract .intS trivial { keepUndefinedString := some false } 0).2.2.2.1 rfl,
   (c1_base_unbox_contract .intS trivial {} 0).2.2.2.2.2.1,
   (c1_base_unbox_contract .intS trivial {} 0).2.2.2.2.2.2.2⟩

/-- C10: the empty string coerces to the number 0, not NaN, so
`intS.unbox("")` and `floatS.unbox("")` both return 0 and no
InvalidNumber error is raised. -/
theorem c10_empty_string_is_zero :
    unboxF 1 .intS (.vStr "") {} = .ok (.vNum (mkRat 0 1)) ∧
    unboxF 1 .floatS (.vStr "") {} = .ok (.vNum (mkRat 0 1)) ∧
    jsStringToNumber "" = some (mkRat 0 1) :=
  ⟨rfl, rfl, rfl⟩

/-- C5 counterexample: the claim says that when the inner conversion
fails, the optional facade returns undefined exactly when the source
was undefined, the error propagating unchanged for every present
source.  For the present source "undefined" under
`keepUndefinedString: false` (and no default rule) the inner unbox
raises FieldMissing, yet the optional facade returns undefined: its
own short-circuit treats the string as absence before ever invoking
the inner conversion. -/
theorem c5_counterexample :
    unboxF 1 .stringS (.vStr "undefined") { keepUndefinedString := some false } =
      .error .fieldMissing ∧
    unboxF 2 (.optional .stringS) (.vStr "undefined") { keepUndefinedString := some false } =
      .ok .vUndefined ∧
    (JSValue.vStr "undefined").isUndefined = false :=
  ⟨rfl, rfl, rfl⟩

/-- C5 (amended): `S.optional.unbox(undefined)` returns undefined
without invoking the inner conversion when no default rule is
attached; an inner failure on an undefined source is always swallowed
into undefined; and for a present source the inner error propagates
unchanged, except for the literal string "undefined" under
`keepUndefinedString` explicitly false with no default rule attached,
which the facade itself short-circuits to undefined (the excluded
guard below is exactly the facade's short-circuit condition). -/
theorem c5_optional_error_suppression :
    (∀ (f : Nat) (S : Schema) (p : Props), hasDefaultRuleOf S = false →
      unboxF (f + 1) (.optional S) .vUndefined p = .ok .vUndefined) ∧
    (∀ (f : Nat) (S : Schema) (p : Props) (e : Err), unboxF f S .vUndefined p = .error e →
      unboxF (f + 1) (.optional S) .vUndefined p = .ok .vUndefined) ∧
    (∀ (f : Nat) (S : Schema) (v : JSValue) (p : Props) (e : Err),
      v.isUndefined = false →
      (!(hasDefaultRuleOf S) && (v.isUndefined || (p.keepUndefFalse && v.isStrLit "undefined"))) = false →
      unboxF f S v p = .error e →
      unboxF (f + 1) (.optional S) v p = .error e) := by
  refine ⟨?_, ?_, ?_⟩
  · intro f S p h
    simp [unboxF, h, JSValue.isUndefined]
  · intro f S p e h
    by_cases hd : hasDefaultRuleOf S = true
    · simp [unboxF, hd, h, JSValue.isUndefined]
    · simp at hd
      simp [unboxF, hd, JSValue.isUndefined]
  · intro f S v p e h1 h2 h3
    simp only [unboxF]
    rw [h2]
    simp only [Bool.false_eq_true, if_false]
    rw [h3]
    simp [h1]

/-- Witness for C5 at concrete schemas: the silent-undefined clause at
the int schema, and the error-propagation clause at the bool schema on
an invalid present string. -/
theorem c5_optional_error_suppression_witness :
    unboxF 1 (.optional .intS) .vUndefined {} = .ok .vUndefined ∧
    unboxF 2 (.optional .boolS) (.vStr "x") {} = .error .invalidBoolean :=
  ⟨c5_optional_error_suppression.1 0 .intS {} rfl,
   c5_optional_error_suppression.2.2 1 .boolS (.vStr "x") {} .invalidBoolean rfl rfl rfl⟩

/-- C6 counterexample: the claim says that when the source is truly
absent/undefined, `S.byDefault(target, condition).optional.unbox`
yields undefined without applying the default.  With the default
condition (null-or-undefined) and a constant target, the undefined
source satisfies the condition and the default IS applied: the result
is the default value, not undefined. -/
theorem c6_counterexample :
    unboxF 2
      (.optional (.byDefault .stringS
        { target := .value (.vStr "def"), condition := byDefaultDefaultCondition }))
      .vUndefined {} = .ok (.vStr "def") ∧
    JSValue.vStr "def" ≠ .vUndefined :=
  ⟨rfl, fun h => JSValue.noConfusion h⟩

/-- C6 (amended): for `D = S.byDefault(target, condition)`,
`D.optional.unbox` routes a present source through the condition and
applies the target resolution when it holds (the optional wrapper does
not short-circuit before the default check); when the source is
absent/undefined the condition is still consulted: if it holds, the
resolution is applied — its value is returned, and only a throwing
resolution yields undefined — and if it does not hold, the result is
the inner conversion's value, with a failing conversion yielding
undefined. -/
theorem c6_optional_after_byDefault :
    (∀ (f : Nat) (S : Schema) (r : DefaultRule) (v : JSValue) (p : Props),
      v.isUndefined = false → r.condition v = true →
      unboxF (f + 2) (.optional (.byDefault S r)) v p = applyTarget r.target v) ∧
    (∀ (f : Nat) (S : Schema) (r : DefaultRule) (p : Props),
      r.condition .vUndefined = true →
      unboxF (f + 2) (.optional (.byDefault S r)) .vUndefined p =
        (match applyTarget r.target .vUndefined with
          | .ok u => .ok u
          | .error _ => .ok .vUndefined)) ∧
    (∀ (f : Nat) (S : Schema) (r : DefaultRule) (p : Props),
      r.condition .vUndefined = false →
      unboxF (f + 2) (.optional (.byDefault S r)) .vUndefined p =
        (match unboxF f S .vUndefined p with
          | .ok u => .ok u
          | .error _ => .ok .vUndefined)) := by
  refine ⟨?_, ?_, ?_⟩
  · intro f S r v p h1 h2
    simp [unboxF, hasDefaultRuleOf, h1, h2]
    cases applyTarget r.target v <;> rfl
  · intro f S r p h
    simp [unboxF, hasDefaultRuleOf, h, JSValue.isUndefined]
  · intro f S r p h
    simp [unboxF, hasDefaultRuleOf, h, JSValue.isUndefined]

/-- Witness for C6: a present null source routed through the default
condition of a value-defaulted optional string schema yields the
default value. -/
theorem c6_optional_after_byDefault_witness :
    unboxF 2
      (.optional (.byDefault .stringS
        { target := .value (.vStr "42"), condition := byDefaultDefaultCondition }))
      .vNull {} = .ok (.vStr "42") :=
  (c6_optional_after_byDefault.1 0 .stringS
    { target := .value (.vStr "42"), condition := byDefaultDefaultCondition }
    .vNull {} rfl rfl).trans rfl

/-- C7: a failed child conversion inside Array, Object or Dictionary
unboxing is wrapped into an error whose message embeds the zero-based
index / the field name / the dictionary key together with a rendering
of the offending raw value and the inner message appended; the
wrapping composes across nesting levels, so unboxing
`[ (name: null) ]` against `arrayS(objectS(name: stringS.notNull))`
raises an error whose message contains both "array element 0" and
"Null not allowed". -/
theorem c7_contextual_error_wrapping :
    (∀ (f : Nat) (S : Schema) (x : JSValue) (p : Props) (e : Err),
      unboxF f S x p = .error e →
      unboxF (f + 1) (.arrayS S) (.vArr [x]) p = .error (wrapErr "array element 0" x e)) ∧
    (∀ (f : Nat) (key : String) (S : Schema) (x : JSValue) (p : Props) (e : Err),
      dataTypeOf S ≠ "recursive" →
      unboxF f S x p = .error e →
      unboxF (f + 1) (.objectS [(key, S)]) (.vObj [(key, x)]) p = .error (wrapErr key x e)) ∧
    (∀ (f : Nat) (k : String) (S : Schema) (x : JSValue) (p : Props) (e : Err),
      unboxF f S x p = .error e →
      unboxF (f + 1) (.dictionaryS S) (.vObj [(k, x)]) p =
        .error (wrapErr ("dictionary element " ++ k) x e)) ∧
    unboxF 3 (.arrayS (.objectS [("name", .notNull .stringS)]))
        (.vArr [.vObj [("name", .vNull)]]) {} =
      .error (.custom "Unboxing array element 0, value: \x7b\"name\":null\x7d: Unboxing name, value: null: Null not allowed") ∧
    strContains "Unboxing array element 0, value: \x7b\"name\":null\x7d: Unboxing name, value: null: Null not allowed" "array element 0" = true ∧
    strContains "Unboxing array element 0, value: \x7b\"name\":null\x7d: Unboxing name, value: null: Null not allowed" "Null not allowed" = true := by
  refine ⟨?_, ?_, ?_, rfl, rfl, rfl⟩
  · intro f S x p e h
    simp [unboxF, convertF, unboxArrayElems, h,
      JSValue.isNull, JSValue.isUndefined, JSValue.isStrLit]
    rfl
  · intro f key S x p e h0 h
    simp [unboxF, convertF, unboxObjectFields, jsGet, List.lookup, h0, h,
      JSValue.isNull, JSValue.isUndefined, JSValue.isStrLit]
  · intro f k S x p e h
    simp [unboxF, convertF, unboxDictEntries, h,
      JSValue.isNull, JSValue.isUndefined, JSValue.isStrLit]

/-- Witness for C7: a not-null string element failing on a null array
entry is wrapped with the index and the rendered value. -/
theorem c7_contextual_error_wrapping_witness :
    unboxF 2 (.arrayS (.notNull .stringS)) (.vArr [.vNull]) {} =
      .error (.custom "Unboxing array element 0, value: null: Null not allowed") :=
  (c7_contextual_error_wrapping.1 1 (.notNull .stringS) .vNull {} .nullNotAllowed rfl).trans rfl

/-- The join of the source's `Array.prototype.join(",")`. -/
def joinComma : List String → String
  | [] => ""
  | [x] => x
  | x :: y :: rest => x ++ "," ++ joinComma (y :: rest)

/-- The recursive field renderer is the map-then-join of the source. -/
theorem sigFields_eq_joinComma (fields : List (String × Schema)) :
    sigFields fields = joinComma (fields.map fun kv => kv.1 ++ ":" ++ sigFull kv.2) := by
  induction fields with
  | nil => rfl
  | cons kv rest ih =>
    cases rest with
    | nil => rfl
    | cons kv2 rest2 =>
      simp only [sigFields, List.map, joinComma, sigFull] at ih ⊢
      rw [ih]

/-- C3: the schema signature is a total, deterministic function of the
schema's shape — objects render as the brace-wrapped comma-joined
"name:signature" list in declaration order, arrays as the element
signature followed by "[]", dictionaries as the brace-wrapped
"[string]:signature", primitives as their dataType tag — with the
suffixes appended in order ".NN" if not-null else ".OPT" if optional,
then ".DEF" if a default rule is present; in particular the signature
of an object defined with a field `arr: arrayS(boolS).notNull`
contains the literal substring "arr:bool[].NN".  (Totality and
determinism are inherent: `sigFull` is a total function of the
tree.) -/
theorem c3_signature_format :
    (∀ fields, sigFull (.objectS fields) =
      "\x7b" ++ joinComma (fields.map fun kv => kv.1 ++ ":" ++ sigFull kv.2) ++ "\x7d") ∧
    (∀ S, sigFull (.arrayS S) = sigFull S ++ "[]") ∧
    (∀ S, sigFull (.dictionaryS S) = "\x7b[string]:" ++ sigFull S ++ "\x7d") ∧
    sigFull .stringS = "string" ∧ sigFull .intS = "int" ∧ sigFull .floatS = "float" ∧
    sigFull .bigintS = "bigint" ∧ sigFull .boolS = "bool" ∧ sigFull .dateS = "date" ∧
    (∀ S, sigFull (.notNull S) =
      sigCore S ++ ".NN" ++ (if hasDefaultRuleOf S then ".DEF" else "")) ∧
    (∀ S, sigFull (.optional S) =
      sigCore S ++ ".OPT" ++ (if hasDefaultRuleOf S then ".DEF" else "")) ∧
    (∀ S r, sigFull (.byDefault S r) =
      sigCore S ++ (if notNullOf S then ".NN" else if optionalOf S then ".OPT" else "") ++ ".DEF") ∧
    sigFull (.objectS [("arr", .notNull (.arrayS .boolS))]) = "\x7barr:bool[].NN\x7d" ∧
    strContains (sigFull (.objectS [("arr", .notNull (.arrayS .boolS))])) "arr:bool[].NN" = true := by
  refine ⟨?_, ?_, ?_, rfl, rfl, rfl, rfl, rfl, rfl, ?_, ?_, ?_, rfl, rfl⟩ <;>
    intros <;>
    simp [sigFull, sigSuffix, sigCore, notNullOf, optionalOf, hasDefaultRuleOf,
      sigFields_eq_joinComma, String.append_assoc]

/-- Modelled from the spec: the tolerant bigint string conversion
described in §4.2 — "parse string tolerating trailing `.` / `,`
fractional suffixes (truncated, not rounded) and `0x` hex prefix;
non-integer numbers truncate toward the floor of their integer part" —
is not present in any snapshot of `primitive-types.ts` in the corpus
(both snapshots convert with a bare `BigInt(source)`, which throws on
such inputs), although the repository's own test suite expects it
(index.test.ts, "Bigint should correctly unbox float number strings
and numbers").  This definition follows the spec's words. -/
def bigintConvertSpec : JSValue → Except Err JSValue
  | .vBigInt n => .ok (.vBigInt n)
  | .vNum q => .ok (.vBigInt (Int.fdiv q.num (q.den : ℤ)))
  | .vStr s =>
    match jsStringToBigInt (String.mk (s.data.takeWhile (fun c => ¬(c = '.' ∨ c = ',')))) with
    | some n => .ok (.vBigInt n)
    | none => .error (.syntaxError "Cannot convert string to a BigInt")
  | _ => .error (.rangeError "Cannot convert to a BigInt")

/-- C4: the int half of the claim holds on the code — `intS.unbox`
rounds non-integer numbers half-up (3.9 to 4), raises InvalidNumber on
NaN coercion and IntOutOfBounds outside the safe range — but the
bigint half does not: the `BigintS.convert` in the corpus is a bare
`BigInt(source)`, so `bigintS.unbox("42.5")`, `bigintS.unbox("42,")`
and `bigintS.unbox(42.5)` all throw (SyntaxError / RangeError) where
the claim, the spec and the repository's own tests expect 42n; the
spec-modelled tolerant conversion (`bigintConvertSpec`) does produce
the claimed values. -/
theorem c4_numeric_conversions :
    unboxF 1 .bigintS (.vStr "42.5") {} =
      .error (.syntaxError "Cannot convert string to a BigInt") ∧
    unboxF 1 .bigintS (.vStr "42,") {} =
      .error (.syntaxError "Cannot convert string to a BigInt") ∧
    unboxF 1 .bigintS (.vNum (mkRat 85 2)) {} =
      .error (.rangeError "The number is not a safe integer") ∧
    bigintConvertSpec (.vStr "42.5") = .ok (.vBigInt 42) ∧
    bigintConvertSpec (.vStr "42,") = .ok (.vBigInt 42) ∧
    bigintConvertSpec (.vStr "0x42") = .ok (.vBigInt 66) ∧
    bigintConvertSpec (.vNum (mkRat 85 2)) = .ok (.vBigInt 42) ∧
    unboxF 1 .intS (.vNum (mkRat 39 10)) {} = .ok (.vNum (mkRat 4 1)) ∧
    unboxF 1 .intS .vNaN {} = .error .invalidNumber ∧
    unboxF 1 .intS (.vStr "wrong") {} = .error .invalidNumber ∧
    unboxF 1 .intS (.vBigInt 12345678901234567890) {} = .error .intOutOfBounds :=
  ⟨rfl, rfl, rfl, rfl, rfl, rfl, rfl, rfl, rfl, rfl, rfl⟩

/-- Key lookup distributes over list concatenation. -/
theorem lookup_append (x y : List (String × Schema)) (k : String) :
    (x ++ y).lookup k =
      (match x.lookup k with | some v => some v | none => y.lookup k) := by
  induction x with
  | nil => simp [List.lookup]
  | cons kv rest ih =>
    by_cases h : k = kv.1
    · simp [List.lookup, h]
    · simp only [List.cons_append, List.lookup]
      rw [show (k == kv.1) = false by simp [h]]
      exact ih

/-- Key lookup through the overriding map of the spread. -/
theorem lookup_override (a b : List (String × Schema)) (k : String) :
    ((a.map (fun kv => (kv.1, (b.lookup kv.1).getD kv.2))).lookup k) =
      (match a.lookup k with
        | some v => some ((b.lookup k).getD v)
        | none => none) := by
  induction a with
  | nil => simp [List.lookup]
  | cons kv rest ih =>
    by_cases h : k = kv.1
    · simp [List.lookup, h]
    · simp only [List.map, List.lookup]
      rw [show (k == kv.1) = false by simp [h]]
      exact ih

/-- Key lookup through the new-keys part of the spread, for a key the
first operand does not carry. -/
theorem lookup_filter_none (a b : List (String × Schema)) (k : String)
    (ha : a.lookup k = none) :
    ((b.filter (fun kv => (a.lookup kv.1).isNone)).lookup k) = b.lookup k := by
  induction b with
  | nil => simp
  | cons kv rest ih =>
    by_cases h : k = kv.1
    · subst h
      simp [List.filter, ha, List.lookup]
    · cases hp : (a.lookup kv.1).isNone with
      | true =>
        simp only [List.filter, hp, List.lookup]
        rw [show (k == kv.1) = false by simp [h]]
        exact ih
      | false =>
        simp only [List.filter, hp, List.lookup]
        rw [show (k == kv.1) = false by simp [h]]
        exact ih

/-- The field map of a spread: the second operand wins on collisions,
the first is kept otherwise. -/
theorem jsSpread_lookup (a b : List (String × Schema)) (k : String) :
    (jsSpread a b).lookup k =
      (match b.lookup k with | some v => some v | none => a.lookup k) := by
  unfold jsSpread
  rw [lookup_append, lookup_override]
  cases ha : a.lookup k with
  | some v =>
    cases hb : b.lookup k <;> simp [hb]
  | none =>
    rw [lookup_filter_none a b k ha]
    cases hb : b.lookup k <;> simp [hb, ha]

/-- C8: `objectS(a,b).extend(c)` produces an Object schema whose
field map is the original overlaid with the additional fields,
additional fields winning on name collision; `extend` on a notNull- or
optional-facaded Object schema extends the underlying definition and
returns an unfaceted Object schema with the same combined fields; and
`extend` on a facaded non-object schema raises the "Cannot extend
non-object schema" error. -/
theorem c8_extend_semantics :
    (∀ fields extra, extendSchema (.objectS fields) extra = .ok (.objectS (jsSpread fields extra))) ∧
    (∀ fields extra,
      extendSchema (.notNull (.objectS fields)) extra = .ok (.objectS (jsSpread fields extra))) ∧
    (∀ fields extra,
      extendSchema (.optional (.objectS fields)) extra = .ok (.objectS (jsSpread fields extra))) ∧
    (∀ fields extra k, (jsSpread fields extra).lookup k =
      (match extra.lookup k with | some v => some v | none => fields.lookup k)) ∧
    extendSchema (.objectS [("a", .intS), ("b", .stringS)]) [("c", .boolS)] =
      .ok (.objectS [("a", .intS), ("b", .stringS), ("c", .boolS)]) ∧
    extendSchema (.optional (.objectS [("a", .intS), ("b", .stringS)])) [("c", .boolS)] =
      .ok (.objectS [("a", .intS), ("b", .stringS), ("c", .boolS)]) ∧
    extendSchema (.notNull (.objectS [("a", .intS), ("b", .stringS)])) [("c", .boolS)] =
      .ok (.objectS [("a", .intS), ("b", .stringS), ("c", .boolS)]) ∧
    extendSchema (.objectS [("a", .intS)]) [("a", .stringS)] =
      .ok (.objectS [("a", .stringS)]) ∧
    extendSchema (.notNull (.arrayS .boolS)) [("c", .intS)] =
      .error (.custom "Cannot extend non-object schema") ∧
    extendSchema (.optional (.arrayS .boolS)) [("c", .intS)] =
      .error (.custom "Cannot extend non-object schema") :=
  ⟨fun _ _ => rfl, fun _ _ => rfl, fun _ _ => rfl, jsSpread_lookup,
   rfl, rfl, rfl, rfl, rfl, rfl⟩

/-- C2 counterexample: the claim says a definition with no
default/validation rule anywhere in its nested schemas is always
cached (`objectS(def) === objectS(def)`).  The field name "a.DEF"
contains no rule, yet it plants the ".DEF" marker inside the signature
"(a.DEF:string)" at a positive index, so the factory treats the
definition as rule-carrying and allocates a fresh instance on every
call: the two results are distinct. -/
theorem c2_counterexample :
    hasRuleDeepFields [("a.DEF", Schema.stringS)] = false ∧
    (getOrCreateObject (getOrCreateObject {} [("a.DEF", .stringS)]).1 [("a.DEF", .stringS)]).2 ≠
      (getOrCreateObject {} [("a.DEF", .stringS)]).2 ∧
    jsIndexOf (sigOfDefinition [("a.DEF", .stringS)]) ".DEF" > 0 :=
  ⟨rfl, by decide, by decide⟩

/-- C2 (amended): the factories cache by signature — for two
definitions (or element/value schemas) with equal signatures, the
second call returns the instance created by the first exactly when the
signature does not contain ".DEF" at a positive index, and allocates a
fresh, distinct instance when it does.  A rule-free definition whose
field names avoid the literal ".DEF" has no marker in its signature
and is therefore cached; a nested default rule puts the marker in the
signature and forces fresh instances — but a rule-free field name
containing ".DEF" also forces fresh instances (see the
counterexample). -/
theorem c2_factory_caching :
    (∀ (st : FactoryState) (d1 d2 : List (String × Schema)),
      sigOfDefinition d1 = sigOfDefinition d2 →
      (¬ jsIndexOf (sigOfDefinition d1) ".DEF" > 0 →
        (getOrCreateObject (getOrCreateObject st d1).1 d2).2 = (getOrCreateObject st d1).2) ∧
      (jsIndexOf (sigOfDefinition d1) ".DEF" > 0 →
        (getOrCreateObject (getOrCreateObject st d1).1 d2).2 ≠ (getOrCreateObject st d1).2)) ∧
    (∀ (st : FactoryState) (s1 s2 : Schema),
      sigFull s1 = sigFull s2 →
      (¬ jsIndexOf (sigFull s1) ".DEF" > 0 →
        (getOrCreateArray (getOrCreateArray st s1).1 s2).2 = (getOrCreateArray st s1).2) ∧
      (jsIndexOf (sigFull s1) ".DEF" > 0 →
        (getOrCreateArray (getOrCreateArray st s1).1 s2).2 ≠ (getOrCreateArray st s1).2)) ∧
    (∀ (st : FactoryState) (s1 s2 : Schema),
      sigFull s1 = sigFull s2 →
      (¬ jsIndexOf (sigFull s1) ".DEF" > 0 →
        (getOrCreateDictionary (getOrCreateDictionary st s1).1 s2).2 =
          (getOrCreateDictionary st s1).2) ∧
      (jsIndexOf (sigFull s1) ".DEF" > 0 →
        (getOrCreateDictionary (getOrCreateDictionary st s1).1 s2).2 ≠
          (getOrCreateDictionary st s1).2)) := by
  refine ⟨?_, ?_, ?_⟩
  · intro st d1 d2 hsig
    constructor
    · intro hno
      simp only [getOrCreateObject, ← hsig, if_neg hno]
      cases hl : st.objStore.lookup (sigOfDefinition d1) with
      | some id => simp [hl]
      | none => simp [hl, List.lookup]
    · intro hyes
      simp only [getOrCreateObject, ← hsig, if_pos hyes]
      omega
  · intro st s1 s2 hsig
    constructor
    · intro hno
      simp only [getOrCreateArray, ← hsig, if_neg hno]
      cases hl : st.arrStore.lookup (sigFull s1) with
      | some id => simp [hl]
      | none => simp [hl, List.lookup]
    · intro hyes
      simp only [getOrCreateArray, ← hsig, if_pos hyes]
      omega
  · intro st s1 s2 hsig
    constructor
    · intro hno
      simp only [getOrCreateDictionary, ← hsig, if_neg hno]
      cases hl : st.dictStore.lookup (sigFull s1) with
      | some id => simp [hl]
      | none => simp [hl, List.lookup]
    · intro hyes
      simp only [getOrCreateDictionary, ← hsig, if_pos hyes]
      omega

/-- Witness for C2: a rule-free object definition is cached (same
instance id on the second call), and a definition carrying a default
rule yields distinct instances. -/
theorem c2_factory_caching_witness :
    (getOrCreateObject (getOrCreateObject {} [("a", .intS)]).1 [("a", .intS)]).2 =
      (getOrCreateObject {} [("a", .intS)]).2 ∧
    (getOrCreateObject
        (getOrCreateObject {}
          [("d", .byDefault .intS { target := .value .vNull, condition := byDefaultDefaultCondition })]).1
        [("d", .byDefault .intS { target := .value .vNull, condition := byDefaultDefaultCondition })]).2 ≠
      (getOrCreateObject {}
        [("d", .byDefault .intS { target := .value .vNull, condition := byDefaultDefaultCondition })]).2 ∧
    (getOrCreateArray (getOrCreateArray {} .boolS).1 .boolS).2 =
      (getOrCreateArray {} .boolS).2 ∧
    (getOrCreateDictionary (getOrCreateDictionary {} .intS).1 .intS).2 =
      (getOrCreateDictionary {} .intS).2 :=
  ⟨(c2_factory_caching.1 {} [("a", .intS)] [("a", .intS)] rfl).1 (by decide),
   (c2_factory_caching.1 {}
      [("d", .byDefault .intS { target := .value .vNull, condition := byDefaultDefaultCondition })]
      [("d", .byDefault .intS { target := .value .vNull, condition := byDefaultDefaultCondition })]
      rfl).2 (by decide),
   (c2_factory_caching.2.1 {} .boolS .boolS rfl).1 (by decide),
   (c2_factory_caching.2.2 {} .intS .intS rfl).1 (by decide)⟩

/-- C9 counterexample: the claim says the invalid-field error names
the member's full slash-joined path from the root.  In a two-level
nesting the member's full path is "/a/b/c", but the raised error is
"Invalid field bad in b/c": the message is built from the immediately
enclosing API's name and the member key only, and does not contain the
full path. -/
theorem c9_counterexample :
    apiSModel [("a", .api [("b", .api [("c", .fn ["args", "bad"] none)])])] none =
      .error "Invalid field bad in b/c" ∧
    strContains "Invalid field bad in b/c" "/a/b/c" = false ∧
    (match apiSModel [("a", .api [("b", .api [("c", .fn ["args"] none)])])] none with
      | .ok m => (m.find ["a", "b", "c"]).map ApiMeta.path
      | .error _ => none) = some "/a/b/c" :=
  ⟨rfl, rfl, rfl⟩

/-- C9 (amended): an unrecognized key on a function-call definition
(anything other than args / retVal / hidden) raises an "invalid field"
error naming the offending field and the member's key prefixed by its
immediately enclosing API's name — "NAME/KEY" — not the full
slash-joined path from the root. -/
theorem c9_invalid_field_error :
    (∀ (metadataName parentPath key : String) (keys : List String)
      (fnHid hid : Option Bool) (rest : List (String × ApiNode)) (fld : String),
      firstInvalidKey keys = some fld →
      extractApiMembers ((key, .fn keys fnHid) :: rest) metadataName parentPath hid =
        .error ("Invalid field " ++ fld ++ " in " ++ metadataName ++ "/" ++ key)) ∧
    (∀ (a b c : String) (keys : List String) (fld : String) (hid : Option Bool),
      firstInvalidKey keys = some fld →
      apiSModel [(a, .api [(b, .api [(c, .fn keys none)])])] hid =
        .error ("Invalid field " ++ fld ++ " in " ++ b ++ "/" ++ c)) := by
  constructor
  · intro metadataName parentPath key keys fnHid hid rest fld h
    simp [extractApiMembers, extractApiMember, h]
  · intro a b c keys fld hid h
    simp [apiSModel, extractApi, extractApiMembers, extractApiMember, h]

/-- Witness for C9 at the repository's own test case: the invalid key
"retval" (wrong capitalization) on a function nested in the "child"
API raises "Invalid field retval in child/guau". -/
theorem c9_invalid_field_error_witness :
    apiSModel [("a", .api [("child", .api [("guau", .fn ["args", "retval"] none)])])] none =
      .error "Invalid field retval in child/guau" :=
  c9_invalid_field_error.2 "a" "child" "guau" ["args", "retval"] "retval" none rfl

end Typizator
